import Mathlib

/-!
Verification of the storage-model layer of a cloud file-storage backend.

This file shallowly embeds the Go model types and their methods from
`pkg/models/user.go`, `pkg/models/file.go` and the folder model, and proves
(or refutes) the specified properties about them.

Modelling conventions:
* `primitive.ObjectID` values are compared in the source only through their
  hex encoding (`Hex()`), which is injective, so identifiers are modelled as
  an abstract type with decidable equality (`Nat`).
* `time.Time` instants are never inspected by the verified operations, so
  they are modelled abstractly as `Nat`; `time.Now()` inside a constructor
  becomes an explicit `now` parameter.
* Go pointer fields (`*T`, nilable) become `Option`.
* Go `int`/`int64` fields become `Int`.  Go `int64` arithmetic wraps on
  overflow (two's complement), so every arithmetic result computed by the
  storage-accounting methods is reduced by `wrap64` into the `int64` range
  `[-2^63, 2^63)`; this is faithful whenever the stored field values are
  themselves in range, which Go's typing guarantees.  List lengths are
  compared without arithmetic and stay plain.
* Strings inspected positionally by the folder path logic are modelled as
  character lists.  Go's `strings.LastIndex` returns a byte index, but the
  needle `/` is a one-byte UTF-8 code point that never occurs inside the
  encoding of another code point, so slash positions and the prefixes they
  delimit coincide between the byte view and the character view.
* Fields irrelevant to every verified operation and carrying types outside
  the embedding (the user's `RateLimit` token bucket, which holds a
  `float64`, and the `APIKeys` list; the file's open-ended
  `map[string]interface{}` metadata) are omitted from the structures; no
  verified method reads or writes them.
-/

namespace Storage

/-- Abstract MongoDB ObjectID.  The source compares these via `Hex()`,
which is injective, so plain decidable equality is faithful. -/
abbrev ObjectID := Nat

/-- Abstract `time.Time` instant. -/
abbrev Time := Nat

/-- Character-list view of a Go string (used where the source inspects
string positions). -/
abbrev Str := List Char

/-- Two's-complement wraparound of Go `int64` arithmetic: reduces an
unbounded integer into `[-2^63, 2^63)`, exactly the value a Go `int64`
holds after an overflowing operation. -/
def wrap64 (x : Int) : Int :=
  (x + 2 ^ 63) % 2 ^ 64 - 2 ^ 63

/-! ## User model (`pkg/models/user.go`) -/

/-- The `User` struct of `pkg/models/user.go` (storage-relevant projection;
see the modelling conventions above for the omitted fields). -/
structure User where
  ID           : ObjectID
  Email        : String
  PasswordHash : String
  Name         : String
  Role         : String
  StorageQuota : Int
  StorageUsed  : Int
  CreatedAt    : Time
  UpdatedAt    : Time
  DeletedAt    : Option Time
  deriving Repr, DecidableEq

/-- Go `func (u *User) HasStorageSpace(fileSize int64) bool`:
`return (u.StorageUsed + fileSize) <= u.StorageQuota`, the `int64` sum
wrapping on overflow. -/
def User.HasStorageSpace (u : User) (fileSize : Int) : Bool :=
  decide (wrap64 (u.StorageUsed + fileSize) ≤ u.StorageQuota)

/-- Go `func (u *User) AddStorage(bytes int64)`: `u.StorageUsed += bytes`,
the `int64` sum wrapping on overflow. -/
def User.AddStorage (u : User) (bytes : Int) : User :=
  { u with StorageUsed := wrap64 (u.StorageUsed + bytes) }

/-- Go `func (u *User) RemoveStorage(bytes int64)`:
`u.StorageUsed -= bytes; if u.StorageUsed < 0 { u.StorageUsed = 0 }`,
the `int64` difference wrapping on overflow before the clamp. -/
def User.RemoveStorage (u : User) (bytes : Int) : User :=
  let used := wrap64 (u.StorageUsed - bytes)
  { u with StorageUsed := if used < 0 then 0 else used }

/-- Go `func (u *User) RemainingStorage() int64`: quota minus used
(wrapping `int64` difference), clamped at 0. -/
def User.RemainingStorage (u : User) : Int :=
  let remaining := wrap64 (u.StorageQuota - u.StorageUsed)
  if remaining < 0 then 0 else remaining

/-! ## File model (`pkg/models/file.go`)

The Go source defines `ProcessingStatus`, `UploadStatus` and `FilePermission`
as named string types with string constants; they are modelled as `String`
with the same constant values. -/

abbrev ProcessingStatus := String

def ProcessingPending : ProcessingStatus := "pending"

def ProcessingInProgress : ProcessingStatus := "processing"

def ProcessingCompleted : ProcessingStatus := "completed"

def ProcessingFailed : ProcessingStatus := "failed"

abbrev UploadStatus := String

def UploadInitiated : UploadStatus := "initiated"

def UploadInProgress : UploadStatus := "in_progress"

def UploadCompleted : UploadStatus := "completed"

def UploadAborted : UploadStatus := "aborted"

abbrev FilePermission := String

def PermissionRead : FilePermission := "read"

def PermissionWrite : FilePermission := "write"

def PermissionAdmin : FilePermission := "admin"

/-- Go `UploadChunk`: one chunk of a multipart upload. -/
structure UploadChunk where
  PartNumber : Int
  ETag       : String
  UploadedAt : Time
  Size       : Int
  deriving Repr, DecidableEq

/-- Go `SharedUser`: a user a file is shared with. -/
structure SharedUser where
  UserID     : ObjectID
  Permission : FilePermission
  SharedAt   : Time
  SharedBy   : ObjectID
  deriving Repr, DecidableEq

/-- The `File` struct of `pkg/models/file.go` (the open-ended
`Metadata map[string]interface{}` field is omitted; see the modelling
conventions in the file header). -/
structure File where
  ID               : ObjectID
  UserID           : ObjectID
  FileName         : String
  FolderID         : Option ObjectID
  FilePath         : String
  S3Key            : String
  S3Bucket         : String
  S3Region         : String
  FileSize         : Int
  MimeType         : String
  Checksum         : String
  Version          : Int
  IsLatest         : Bool
  ParentFileID     : Option ObjectID
  ProcessingStatus : ProcessingStatus
  ThumbnailURL     : Option String
  CompressedURL    : Option String
  UploadID         : String
  Chunks           : List UploadChunk
  UploadStatus     : UploadStatus
  OwnerID          : ObjectID
  SharedWith       : List SharedUser
  IsPublic         : Bool
  PublicURL        : Option String
  CreatedAt        : Time
  UpdatedAt        : Time
  DeletedAt        : Option Time
  LastAccessedAt   : Option Time
  deriving Repr, DecidableEq

/-- Go `func (f *File) IsActive() bool`: `return f.DeletedAt == nil`. -/
def File.IsActive (f : File) : Bool :=
  decide (f.DeletedAt = none)

/-- Go `func (f *File) IsDocument() bool`: lookup of `f.MimeType` in the
`docTypes` map literal, whose values are all `true` — equivalent to
membership in its key set. -/
def File.IsDocument (f : File) : Bool :=
  f.MimeType == "application/pdf" ||
  f.MimeType == "application/msword" ||
  f.MimeType == "application/vnd.openxmlformats-officedocument.wordprocessingml.document" ||
  f.MimeType == "application/vnd.ms-excel" ||
  f.MimeType == "application/vnd.openxmlformats-officedocument.spreadsheetml.sheet" ||
  f.MimeType == "text/plain"

/-- Go `func (f *File) CanCompress() bool`: returns `false` when `f.MimeType`
is in the `compressedFormats` map literal, otherwise
`f.IsDocument() || f.MimeType == "text/plain" || f.MimeType == "application/json"`. -/
def File.CanCompress (f : File) : Bool :=
  if f.MimeType == "image/jpeg" ||
     f.MimeType == "image/jpg" ||
     f.MimeType == "image/png" ||
     f.MimeType == "video/mp4" ||
     f.MimeType == "video/x-matroska" ||
     f.MimeType == "application/zip" ||
     f.MimeType == "application/x-rar-compressed" then
    false
  else
    f.IsDocument || f.MimeType == "text/plain" || f.MimeType == "application/json"

/-- The `for _, shared := range ... { if shared.UserID.Hex() == userID.Hex() }`
loop shared by `IsSharedWith` and `GetPermission`: first matching entry wins. -/
def lookupShared (userID : ObjectID) : List SharedUser → Option FilePermission
  | [] => none
  | s :: rest => if s.UserID = userID then some s.Permission else lookupShared userID rest

/-- Go `func (f *File) IsSharedWith(userID primitive.ObjectID) bool`. -/
def File.IsSharedWith (f : File) (userID : ObjectID) : Bool :=
  (lookupShared userID f.SharedWith).isSome

/-- Go `func (f *File) GetPermission(userID) (FilePermission, bool)`:
owner check first (owners get admin), then the first matching `SharedWith`
entry, else `("", false)`. -/
def File.GetPermission (f : File) (userID : ObjectID) : FilePermission × Bool :=
  if f.OwnerID = userID then
    (PermissionAdmin, true)
  else
    match lookupShared userID f.SharedWith with
    | some p => (p, true)
    | none => ("", false)

/-- Go `func (f *File) AddChunk(partNumber int, etag string, size int64)`:
appends a descriptor stamped `time.Now()` (the explicit `now` parameter)
to `f.Chunks`, unconditionally. -/
def File.AddChunk (f : File) (partNumber : Int) (etag : String) (size : Int)
    (now : Time) : File :=
  { f with
    Chunks := f.Chunks ++
      [{ PartNumber := partNumber, ETag := etag, UploadedAt := now, Size := size }] }

/-- Go `func (f *File) AllChunksUploaded(expectedChunks int) bool`:
`return len(f.Chunks) == expectedChunks`. -/
def File.AllChunksUploaded (f : File) (expectedChunks : Int) : Bool :=
  decide ((f.Chunks.length : Int) = expectedChunks)

/-- Go `func NewFile(...) *File`: constructor with default values;
`time.Now()` and `primitive.NewObjectID()` become the explicit `now` and
`id` parameters.  The Go struct literal leaves `UploadID` at its zero
value `""`. -/
def NewFile (id : ObjectID) (now : Time) (userID : ObjectID) (fileName : String)
    (fileSize : Int) (mimeType s3Key s3Bucket s3Region checksum : String) : File :=
  { ID               := id
    UserID           := userID
    FileName         := fileName
    FolderID         := none
    FilePath         := "/" ++ fileName
    S3Key            := s3Key
    S3Bucket         := s3Bucket
    S3Region         := s3Region
    FileSize         := fileSize
    MimeType         := mimeType
    Checksum         := checksum
    Version          := 1
    IsLatest         := true
    ParentFileID     := none
    ProcessingStatus := ProcessingPending
    ThumbnailURL     := none
    CompressedURL    := none
    UploadID         := ""
    Chunks           := []
    UploadStatus     := UploadCompleted
    OwnerID          := userID
    SharedWith       := []
    IsPublic         := false
    PublicURL        := none
    CreatedAt        := now
    UpdatedAt        := now
    DeletedAt        := none
    LastAccessedAt   := none }

/-- Go `func NewFileForChunkedUpload(...) *File`: `NewFile` with empty
checksum, then sets `UploadID` and `UploadStatus = UploadInitiated`. -/
def NewFileForChunkedUpload (id : ObjectID) (now : Time) (userID : ObjectID)
    (fileName : String) (fileSize : Int)
    (mimeType s3Key s3Bucket s3Region uploadID : String) : File :=
  { NewFile id now userID fileName fileSize mimeType s3Key s3Bucket s3Region "" with
    UploadID     := uploadID
    UploadStatus := UploadInitiated }

/-! ## Folder model (the folder source file) -/

/-- The `Folder` struct (name, path, color and icon are Go strings,
modelled as character lists so the path logic can be verified). -/
structure Folder where
  ID             : ObjectID
  Name           : Str
  UserID         : ObjectID
  ParentFolderID : Option ObjectID
  Path           : Str
  Color          : Str
  Icon           : Str
  SharedWith     : List SharedUser
  CreatedAt      : Time
  UpdatedAt      : Time
  DeletedAt      : Option Time
  deriving Repr, DecidableEq

/-- Go `func (f *Folder) IsActive() bool`: `return f.DeletedAt == nil`. -/
def Folder.IsActive (f : Folder) : Bool :=
  decide (f.DeletedAt = none)

/-- Go `func (f *Folder) IsRootLevel() bool`:
`return f.ParentFolderID == nil`. -/
def Folder.IsRootLevel (f : Folder) : Bool :=
  decide (f.ParentFolderID = none)

/-- Go `strings.LastIndex(s, needle)` for a one-character needle: index of
the last occurrence of `c`, `-1` when absent. -/
def lastIndex (c : Char) : Str → Int
  | [] => -1
  | a :: rest =>
    let r := lastIndex c rest
    if 0 ≤ r then r + 1
    else if a = c then 0 else -1

/-- Go `func (f *Folder) GetParentPath() string`:
`lastSlash := strings.LastIndex(f.Path, "/"); if lastSlash <= 0 { return "" };`
`return f.Path[:lastSlash]`. -/
def Folder.GetParentPath (f : Folder) : Str :=
  let lastSlash := lastIndex '/' f.Path
  if lastSlash ≤ 0 then []
  else f.Path.take lastSlash.toNat

/-- Go `func NewFolder(userID, name, parentFolderID, parentPath) *Folder`:
path is `"/" + name` for an empty parent path and `parentPath + "/" + name`
otherwise; `time.Now()` and `primitive.NewObjectID()` become the explicit
`now` and `id` parameters.  The Go struct literal leaves `Color` and `Icon`
at their zero value `""`. -/
def NewFolder (id : ObjectID) (now : Time) (userID : ObjectID) (name : Str)
    (parentFolderID : Option ObjectID) (parentPath : Str) : Folder :=
  let path : Str :=
    if parentPath = [] then '/' :: name
    else parentPath ++ '/' :: name
  { ID             := id
    Name           := name
    UserID         := userID
    ParentFolderID := parentFolderID
    Path           := path
    Color          := []
    Icon           := []
    SharedWith     := []
    CreatedAt      := now
    UpdatedAt      := now
    DeletedAt      := none }

/-- Go `func NewRootFolder(userID, name) *Folder`:
`NewFolder(userID, name, nil, "")`. -/
def NewRootFolder (id : ObjectID) (now : Time) (userID : ObjectID)
    (name : Str) : Folder :=
  NewFolder id now userID name none []

/-! ## Concrete instances used by witnesses and counterexamples -/

/-- The quota-1000 scenario user before any upload. -/
def scenarioUser : User :=
  { ID := 1, Email := "owner@example.com", PasswordHash := "h",
    Name := "owner", Role := "user", StorageQuota := 1000, StorageUsed := 0,
    CreatedAt := 0, UpdatedAt := 0, DeletedAt := none }

/-- A user with quota 100 and used 80 (for the quota-check witness). -/
def tightUser : User :=
  { ID := 2, Email := "tight@example.com", PasswordHash := "h",
    Name := "tight", Role := "user", StorageQuota := 100, StorageUsed := 80,
    CreatedAt := 0, UpdatedAt := 0, DeletedAt := none }

/-- A user whose used bytes sit at `2^62` — a perfectly valid `int64`
value — with a small quota; adding another `2^62` bytes overflows. -/
def overflowUser : User :=
  { ID := 3, Email := "big@example.com", PasswordHash := "h",
    Name := "big", Role := "user", StorageQuota := 1000,
    StorageUsed := 2 ^ 62, CreatedAt := 0, UpdatedAt := 0, DeletedAt := none }

/-- A file record template used by the concrete instances below. -/
def baseFile : File :=
  { ID := 10, UserID := 7, FileName := "doc.pdf", FolderID := none,
    FilePath := "/doc.pdf", S3Key := "users/7/files/doc.pdf",
    S3Bucket := "file-storage", S3Region := "us-east-1", FileSize := 1024,
    MimeType := "application/pdf", Checksum := "c0ffee", Version := 1,
    IsLatest := true, ParentFileID := none,
    ProcessingStatus := ProcessingPending, ThumbnailURL := none,
    CompressedURL := none, UploadID := "", Chunks := [],
    UploadStatus := UploadCompleted, OwnerID := 7, SharedWith := [],
    IsPublic := false, PublicURL := none, CreatedAt := 0, UpdatedAt := 0,
    DeletedAt := none, LastAccessedAt := none }

/-- A chunked-upload file holding two chunks that both carry part number 1:
two calls of `AddChunk` with index 1 produce exactly this chunk list. -/
def badChunkFile : File :=
  { baseFile with
    UploadID := "mp-upload-1", UploadStatus := UploadInProgress,
    Chunks := [{ PartNumber := 1, ETag := "etag-a", UploadedAt := 0, Size := 5 },
               { PartNumber := 1, ETag := "etag-b", UploadedAt := 1, Size := 5 }] }

/-- A chunked-upload file that has recorded one chunk with part number 1
and content tag `etag-a`. -/
def dupChunkFile : File :=
  { baseFile with
    UploadID := "mp-upload-2", UploadStatus := UploadInProgress,
    Chunks := [{ PartNumber := 1, ETag := "etag-a", UploadedAt := 0, Size := 5 }] }

/-- A file whose `SharedWith` list contains an entry granting its *owner*
(user 7) only read permission — exercising the owner-precedence branch. -/
def sharedOwnerFile : File :=
  { baseFile with
    SharedWith := [{ UserID := 7, Permission := PermissionRead,
                     SharedAt := 0, SharedBy := 9 }] }

/-! ## Claims -/

/-- Arithmetic results already inside the `int64` range are unchanged by
the wraparound. -/
theorem wrap64_eq_of_range (x : Int) (h1 : -(2 ^ 63) ≤ x) (h2 : x < 2 ^ 63) :
    wrap64 x = x := by
  have p63 : (2 : Int) ^ 63 = 9223372036854775808 := by norm_num
  have p64 : (2 : Int) ^ 64 = 18446744073709551616 := by norm_num
  simp only [wrap64, p63, p64] at *
  omega

/-- C3 counterexample.  Go's `int64` sum wraps: a user with
`used = 2^62`, `quota = 1000` requesting `b = 2^62` further (non-negative)
bytes *passes* the storage check — the wrapped sum is `-2^63 ≤ 1000` —
although mathematically `used + b > quota`, so the claimed iff (and the
always-rejected clause) is false of the program. -/
theorem hasStorageSpace_overflow_counterexample :
    overflowUser.HasStorageSpace (2 ^ 62) = true ∧
    ¬ (overflowUser.StorageUsed + 2 ^ 62 ≤ overflowUser.StorageQuota) := by
  refine ⟨by decide, by decide⟩

/-- C3 (amended).  For every user and every non-negative byte count `b`,
*provided the `int64` sum `used + b` does not overflow*, the storage check
`HasStorageSpace` succeeds if and only if `used + b ≤ quota`; equivalently,
requesting more than `quota - used` bytes is rejected.  (`HasStorageSpace`
is a pure predicate returning only a boolean, so the check itself cannot
change the used-bytes counter.) -/
theorem hasStorageSpace_iff (u : User) (b : Int) (_hb : 0 ≤ b)
    (hlo : -(2 ^ 63) ≤ u.StorageUsed + b) (hhi : u.StorageUsed + b < 2 ^ 63) :
    (u.HasStorageSpace b = true ↔ u.StorageUsed + b ≤ u.StorageQuota) ∧
    (u.StorageQuota - u.StorageUsed < b → u.HasStorageSpace b = false) := by
  have hw : wrap64 (u.StorageUsed + b) = u.StorageUsed + b :=
    wrap64_eq_of_range _ hlo hhi
  constructor
  · simp [User.HasStorageSpace, hw]
  · intro h
    simp [User.HasStorageSpace, hw]
    omega

/-- Concrete instantiation of `hasStorageSpace_iff`: the user with quota 100
and used 80 is refused 30 further bytes (the sum 110 is far from
overflowing). -/
theorem hasStorageSpace_iff_witness :
    tightUser.HasStorageSpace 30 = false :=
  (hasStorageSpace_iff tightUser 30 (by decide) (by decide) (by decide)).2
    (by decide)

/-- C4 counterexample.  The claim quantifies over *every* byte count, but
`AddStorage` adds the argument unconditionally: on a user with `used = 0`,
`AddStorage(-5)` drives the used-bytes counter to `-5`, which is negative.
(Overflow is a second failure mode: `AddStorage(2^62)` on `used = 2^62`
wraps to `-2^63`, also negative.) -/
theorem addStorage_negative_counterexample :
    (scenarioUser.AddStorage (-5)).StorageUsed < 0 ∧
    (overflowUser.AddStorage (2 ^ 62)).StorageUsed < 0 := by
  refine ⟨by decide, by decide⟩

/-- C4 (amended).  For every user with non-negative used bytes:
`AddStorage` with a *non-negative* byte count keeps used bytes non-negative
*provided the `int64` sum does not overflow*, and `RemoveStorage` with *any*
byte count keeps used bytes non-negative (its clamp guarantees this even
when the subtraction wraps). -/
theorem storage_mutations_nonneg (u : User) (b : Int) (hu : 0 ≤ u.StorageUsed) :
    (0 ≤ b → u.StorageUsed + b < 2 ^ 63 → 0 ≤ (u.AddStorage b).StorageUsed) ∧
    0 ≤ (u.RemoveStorage b).StorageUsed := by
  constructor
  · intro hb hof
    have h0 : (0 : Int) ≤ u.StorageUsed + b := by omega
    have hw : wrap64 (u.StorageUsed + b) = u.StorageUsed + b :=
      wrap64_eq_of_range _ (le_trans (by norm_num) h0) hof
    simp only [User.AddStorage, hw]
    omega
  · simp only [User.RemoveStorage]
    split <;> omega

/-- Concrete instantiation of `storage_mutations_nonneg` at the quota-1000
user and a byte count of 10. -/
theorem storage_mutations_nonneg_witness :
    (0 ≤ (10 : Int) → scenarioUser.StorageUsed + 10 < 2 ^ 63 →
      0 ≤ (scenarioUser.AddStorage 10).StorageUsed) ∧
    0 ≤ (scenarioUser.RemoveStorage 10).StorageUsed :=
  storage_mutations_nonneg scenarioUser 10 (by decide)

/-- C5.  Scenario: for a user with quota 1000 and used 0, a 600-byte upload
passes the storage check and leaves used = 600; the subsequent 500-byte check
fails, and — the check being a pure predicate — used remains 600. -/
theorem quota_scenario :
    scenarioUser.HasStorageSpace 600 = true ∧
    (scenarioUser.AddStorage 600).StorageUsed = 600 ∧
    (scenarioUser.AddStorage 600).HasStorageSpace 500 = false ∧
    (scenarioUser.AddStorage 600).StorageUsed = 600 := by
  refine ⟨by decide, by decide, by decide, by decide⟩

/-- C1 (the code evaluated at the failing input).  `AllChunksUploaded`
compares only the chunk count: on a file holding two chunks that both carry
part number 1, `AllChunksUploaded 2` returns `true` although chunk index 2
was never uploaded — the recorded indices are `[1, 1]`, not the set {1, 2}
the claim requires for a `true` answer. -/
theorem allChunksUploaded_ignores_indices :
    badChunkFile.AllChunksUploaded 2 = true ∧
    badChunkFile.Chunks.map UploadChunk.PartNumber = [1, 1] ∧
    2 ∉ badChunkFile.Chunks.map UploadChunk.PartNumber := by
  refine ⟨by decide, by decide, by decide⟩

/-- C2 counterexample.  Adding a chunk whose part number (1) and content tag
(`etag-a`) both equal those of the already-recorded chunk of `dupChunkFile`
does *not* leave the recorded chunk descriptors unchanged: `AddChunk`
appends unconditionally, so a second descriptor with index 1 is recorded. -/
theorem addChunk_duplicate_counterexample :
    (dupChunkFile.AddChunk 1 "etag-a" 5 1).Chunks ≠ dupChunkFile.Chunks := by
  decide

/-- C2 (amended).  `AddChunk` never deduplicates: for every file and every
chunk (including one whose part number and content tag equal those of an
already-recorded chunk) it appends a fresh descriptor, so the chunk list
always grows and chunk indices are not kept unique by this method. -/
theorem addChunk_always_appends (f : File) (p : Int) (e : String) (s : Int)
    (t : Time) :
    (f.AddChunk p e s t).Chunks
      = f.Chunks ++ [{ PartNumber := p, ETag := e, UploadedAt := t, Size := s }] ∧
    (f.AddChunk p e s t).Chunks ≠ f.Chunks := by
  refine ⟨rfl, ?_⟩
  intro hEq
  have hlen := congrArg List.length hEq
  simp only [File.AddChunk, List.length_append, List.length_cons,
    List.length_nil] at hlen
  omega

/-- C6.  Every file produced by the `NewFile` constructor has version
number 1, is marked current (`IsLatest = true`), has no parent-version
reference and no soft-delete timestamp — a fresh lineage satisfying the
at-most-one-current-and-undeleted invariant. -/
theorem newFile_fresh_lineage (id : ObjectID) (now : Time) (userID : ObjectID)
    (fileName : String) (fileSize : Int)
    (mimeType s3Key s3Bucket s3Region checksum : String) :
    (NewFile id now userID fileName fileSize mimeType s3Key s3Bucket s3Region
      checksum).Version = 1 ∧
    (NewFile id now userID fileName fileSize mimeType s3Key s3Bucket s3Region
      checksum).IsLatest = true ∧
    (NewFile id now userID fileName fileSize mimeType s3Key s3Bucket s3Region
      checksum).ParentFileID = none ∧
    (NewFile id now userID fileName fileSize mimeType s3Key s3Bucket s3Region
      checksum).DeletedAt = none :=
  ⟨rfl, rfl, rfl, rfl⟩

/-- C7.  The folder created by `NewFolder` stores the materialized path
`"/" ++ name` when the parent path is empty and `parentPath ++ "/" ++ name`
otherwise — always the parent's path extended by the delimiter and the
folder's own name. -/
theorem newFolder_path (id : ObjectID) (now : Time) (userID : ObjectID)
    (name : Str) (pid : Option ObjectID) (parentPath : Str) :
    (NewFolder id now userID name pid parentPath).Path =
      if parentPath = [] then '/' :: name else parentPath ++ '/' :: name := rfl

/-- A character that occurs nowhere in a string has last index `-1`
(the `strings.LastIndex` not-found value). -/
theorem lastIndex_of_not_mem (c : Char) (s : Str) (h : c ∉ s) :
    lastIndex c s = -1 := by
  induction s with
  | nil => rfl
  | cons a rest ih =>
    have h2 : c ∉ rest := fun hc => h (List.mem_cons_of_mem a hc)
    have h3 : ¬ (a = c) := fun hc => h (hc ▸ List.mem_cons_self a rest)
    simp [lastIndex, ih h2, h3]

/-- The last index of `c` in `P ++ c :: N` with `c` absent from `N` is
exactly the length of `P`. -/
theorem lastIndex_append_cons (c : Char) (P N : Str) (hN : c ∉ N) :
    lastIndex c (P ++ c :: N) = (P.length : Int) := by
  induction P with
  | nil => simp [lastIndex, lastIndex_of_not_mem c N hN]
  | cons a P ih =>
    have step : lastIndex c ((a :: P) ++ c :: N)
        = if 0 ≤ lastIndex c (P ++ c :: N) then lastIndex c (P ++ c :: N) + 1
          else if a = c then 0 else -1 := rfl
    have hpos : (0 : Int) ≤ (P.length : Int) := by omega
    rw [step, ih, if_pos hpos, List.length_cons]
    push_cast
    ring

/-- C8.  Round trip of path construction and parent extraction: for every
non-empty parent path `P` starting with `/` and every name `N` containing no
`/`, `GetParentPath` applied to the folder produced by `NewFolder` with
parent path `P` and name `N` returns exactly `P`. -/
theorem getParentPath_roundtrip (id : ObjectID) (now : Time) (userID : ObjectID)
    (pid : Option ObjectID) (P N : Str) (hP : P ≠ [])
    (_hstart : P.head? = some '/') (hN : '/' ∉ N) :
    (NewFolder id now userID N pid P).GetParentPath = P := by
  have hpath : (NewFolder id now userID N pid P).Path = P ++ '/' :: N := by
    simp [NewFolder, hP]
  have hlen : 0 < P.length := List.length_pos.mpr hP
  have htoNat : ((P.length : Int)).toNat = P.length := by omega
  simp only [Folder.GetParentPath, hpath, lastIndex_append_cons '/' P N hN]
  rw [if_neg (by omega), htoNat]
  exact List.take_left P ('/' :: N)

/-- Concrete instantiation of `getParentPath_roundtrip` with parent path
`/a` and folder name `b`: the constructed path is `/a/b` and the parent
path read back is `/a`. -/
theorem getParentPath_roundtrip_witness :
    (NewFolder 3 0 7 ['b'] (some 4) ['/', 'a']).GetParentPath = ['/', 'a'] :=
  getParentPath_roundtrip 3 0 7 (some 4) ['/', 'a'] ['b']
    (by decide) (by decide) (by decide)

/-- C9.  Documents are always compressible: the document MIME-type set of
`IsDocument` is disjoint from the already-compressed exclusion set of
`CanCompress`, and every document type reaches the `IsDocument()`
disjunct, so `IsDocument = true` implies `CanCompress = true`. -/
theorem isDocument_canCompress (f : File) (h : f.IsDocument = true) :
    f.CanCompress = true := by
  simp only [File.IsDocument, Bool.or_eq_true, beq_iff_eq] at h
  rcases h with ((((h | h) | h) | h) | h) | h <;>
    simp [File.CanCompress, File.IsDocument, h]

/-- Concrete instantiation of `isDocument_canCompress` at the PDF file
`baseFile`. -/
theorem isDocument_canCompress_witness : baseFile.CanCompress = true :=
  isDocument_canCompress baseFile (by decide)

/-- C10.  Owner precedence in permission lookup: when the queried user is
the file's owner, `GetPermission` returns `(PermissionAdmin, true)`
regardless of any `SharedWith` entry for that user — the owner branch is
checked before the shared list is consulted. -/
theorem owner_gets_admin (f : File) (userID : ObjectID)
    (h : f.OwnerID = userID) :
    f.GetPermission userID = (PermissionAdmin, true) := by
  simp [File.GetPermission, h]

/-- Concrete instantiation of `owner_gets_admin` at `sharedOwnerFile`,
whose `SharedWith` list grants its owner (user 7) only read permission:
the owner still gets admin. -/
theorem owner_gets_admin_witness :
    sharedOwnerFile.GetPermission 7 = (PermissionAdmin, true) :=
  owner_gets_admin sharedOwnerFile 7 rfl

end Storage
